import Mathlib

/-!
Verification development for the arena-battle game server.

This file gives a shallow embedding, in Lean 4, of the server-side
simulation code of the repository (Python, under `src/`), and proves or
refutes a list of behavioural claims about it.

Conventions of the embedding:
* Python `float` arithmetic is modelled by exact rational arithmetic (`ℚ`);
  every quantity the proofs depend on is produced by ring operations and
  comparisons that Python evaluates on IEEE doubles, and the theorems are
  statements about the exact-arithmetic semantics of the same code.
* Python `dict`s keyed by id are modelled by association lists
  (`List` of records carrying their own id), preserving insertion order,
  which is Python's iteration order.
* Python `set`s of hashable values are modelled by `Finset`.
* A Python function that can raise is modelled in `Except String`.
* `math.sqrt(d) <= r` on nonnegative operands is embedded as `d ≤ r ^ 2`.
-/

namespace ArenaBattle

/-- `Team` from `common/states/state_entity.py`: NEUTRAL = 0, TEAM_A = 1,
TEAM_B = 2. -/
inductive Team where
  | NEUTRAL
  | TEAM_A
  | TEAM_B
deriving DecidableEq, Repr

/-- Numeric value of a team id, as used on the wire (`IntEnum`). -/
def Team.val : Team → ℕ
  | .NEUTRAL => 0
  | .TEAM_A => 1
  | .TEAM_B => 2

/-! ## Grid walls (`common/states/state_walls.py`) -/

/-- `WallOperation` from `state_walls.py`: ADD = 1, REMOVE = 2. -/
inductive WallOp where
  | ADD
  | REMOVE
deriving DecidableEq, Repr

/-- `StateWalls` from `common/states/state_walls.py`: grid geometry, the
set of wall cells, and the append-only change buffer. -/
structure StateWalls where
  gridUnit : ℤ
  worldWidth : ℤ
  worldHeight : ℤ
  cells : Finset (ℤ × ℤ)
  changeBuffer : List (WallOp × ℤ × ℤ)
deriving DecidableEq

/-- `StateWalls.is_valid_cell`: `0 <= cx < world_width // grid_unit` and
`0 <= cy < world_height // grid_unit` (Python `//` is floor division,
`Int.fdiv` here). -/
def StateWalls.isValidCell (w : StateWalls) (cx cy : ℤ) : Bool :=
  0 ≤ cx ∧ cx < Int.fdiv w.worldWidth w.gridUnit ∧
    0 ≤ cy ∧ cy < Int.fdiv w.worldHeight w.gridUnit

/-- `StateWalls.to_cell`: pixel to cell via `int(px // grid_unit)`
(floor division of a float by an int). -/
def StateWalls.toCell (w : StateWalls) (px py : ℚ) : ℤ × ℤ :=
  (⌊px / (w.gridUnit : ℚ)⌋, ⌊py / (w.gridUnit : ℚ)⌋)

/-- `StateWalls.has_wall`. -/
def StateWalls.hasWall (w : StateWalls) (cx cy : ℤ) : Bool :=
  (cx, cy) ∈ w.cells

/-- `StateWalls.has_wall_at_pos`. -/
def StateWalls.hasWallAtPos (w : StateWalls) (px py : ℚ) : Bool :=
  let c := w.toCell px py
  w.hasWall c.1 c.2

/-- `StateWalls.add_wall`: no-op on an invalid cell; otherwise inserts the
cell if absent, appending `(ADD, cx, cy)` to the change buffer when
`track_change` is set. -/
def StateWalls.addWall (w : StateWalls) (cx cy : ℤ) (trackChange : Bool) :
    StateWalls :=
  if ¬ w.isValidCell cx cy then w
  else if (cx, cy) ∈ w.cells then w
  else
    { w with
      cells := insert (cx, cy) w.cells
      changeBuffer :=
        if trackChange then w.changeBuffer ++ [(WallOp.ADD, cx, cy)]
        else w.changeBuffer }

/-- `StateWalls.remove_wall`: discards the cell if present, appending
`(REMOVE, cx, cy)` to the change buffer when `track_change` is set.
(The source performs no bounds check here; an out-of-bounds cell is
simply never in the set.) -/
def StateWalls.removeWall (w : StateWalls) (cx cy : ℤ) (trackChange : Bool) :
    StateWalls :=
  if (cx, cy) ∈ w.cells then
    { w with
      cells := w.cells.erase (cx, cy)
      changeBuffer :=
        if trackChange then w.changeBuffer ++ [(WallOp.REMOVE, cx, cy)]
        else w.changeBuffer }
  else w

/-! ## Agents at the manager level -/

/-- The slice of agent state consulted by the collision kernel, the
survival win check and the CTF flag logic: `state.id_entity`, position,
`state.radius`, `state.team` (`common/states/state_entity.py`) and the
gameplay `health` field of `Agent` (`server/gameplay/agent.py`). -/
structure AgentSt where
  id : ℕ
  x : ℚ
  y : ℚ
  radius : ℚ
  team : Team
  health : ℚ
deriving DecidableEq, Repr

/-- `Agent.is_alive`: `health > 0`. -/
def AgentSt.isAlive (a : AgentSt) : Bool := 0 < a.health

/-- `Agent.take_damage`: `health = max(0, health - amount)`. -/
def AgentSt.takeDamage (a : AgentSt) (amount : ℚ) : AgentSt :=
  { a with health := max 0 (a.health - amount) }

/-! ## Survival win check (`server/gameplay/game_manager.py`, end of
`GameManager.update`) -/

/-- The win-condition block at the end of `GameManager.update`, run after
dead agents have been purged.  It collects the set of teams of the
remaining agents; when exactly one team remains it records that team as
`winner_team` and clears `is_running`.  Input: the post-purge agent
table, the current `winner_team` and `is_running`; output: the new
`(winner_team, is_running)` pair. -/
def survivalWinPhase (agents : List AgentSt) (winnerTeam : Option Team)
    (isRunning : Bool) : Option Team × Bool :=
  let remaining : List Team := (agents.map (fun a => a.team)).dedup
  if remaining.length = 1 then (remaining.head?, false)
  else (winnerTeam, isRunning)

/-- A concrete agent used to instantiate theorems. -/
def agentA0 : AgentSt :=
  { id := 0, x := 100, y := 100, radius := 20, team := Team.TEAM_A,
    health := 100 }

/-- A small concrete wall state for instantiating theorems. -/
def wallsEx : StateWalls :=
  { gridUnit := 5, worldWidth := 1280, worldHeight := 720,
    cells := {(3, 4)}, changeBuffer := [] }

/-! ## Game-loop teardown (`server/network/network_manager.py`,
`NetworkManagerUnified._game_loop`) -/

/-- The ways `_game_loop`'s simulation loop stops: the while-condition
fails because the manager cleared `is_running` (a natural end via a win
condition), the while-condition fails because the connected-client count
dropped below `required_clients`, or the task is cancelled by
`handle_client` after a disconnection (the `except asyncio.CancelledError`
arm, which just clears `is_running`). -/
inductive LoopExit where
  | naturalEnd
  | clientsBelowRequired
  | cancelled
deriving DecidableEq, Repr

/-- A server-to-client control message relevant to match teardown. -/
inductive NetMsg where
  | gameEnd (winner : ℕ)
deriving DecidableEq, Repr

/-- The `finally:` block of `_game_loop`: whichever way the loop stopped,
it broadcasts `GAME_END` with the winner byte `int(winner_team)` when a
winner was recorded and `0` otherwise, then disconnects the clients.
Output: the control messages broadcast during teardown, per exit cause. -/
def gameLoopTeardown : LoopExit → Option ℕ → List NetMsg
  | LoopExit.naturalEnd, w => [NetMsg.gameEnd (w.getD 0)]
  | LoopExit.clientsBelowRequired, w => [NetMsg.gameEnd (w.getD 0)]
  | LoopExit.cancelled, w => [NetMsg.gameEnd (w.getD 0)]

/-! ## Strategy exceptions at the manager boundary
(`server/gameplay/game_manager.py` lines 108-110 and
`server/gameplay/agent.py`, `Agent.update_strategy`) -/

/-- An agent as seen by the per-tick agent phase: its gameplay state, its
`time_alive` accumulator, and its strategy.  A strategy
(`Strategy.execute(self, dt)`) is arbitrary Python code and may raise; it
is embedded as a function into `Except String`. -/
structure StratAgent where
  st : AgentSt
  timeAlive : ℚ
  strategy : ℚ → AgentSt → Except String AgentSt

/-- `Agent.update_strategy`: runs `_update_tick_before_strategy` (here:
the `time_alive += dt` bookkeeping; the weapon machinery is modelled
separately below) and then `self.strategy.execute(self, dt)`.  Neither
`update_strategy` nor its callers wrap the strategy call in `try`. -/
def updateStrategy (dt : ℚ) (a : StratAgent) : Except String StratAgent :=
  let a1 : StratAgent := { a with timeAlive := a.timeAlive + dt }
  match a1.strategy dt a1.st with
  | Except.ok st2 => Except.ok { a1 with st := st2 }
  | Except.error e => Except.error e

/-- The agent-update phase of `GameManager.update`:
`for agent in self.agents.values(): agent.update_strategy(dt)`, with no
exception handling — an exception raised by any agent's strategy
propagates and aborts the remainder of the loop (and of the tick). -/
def agentsPhase (dt : ℚ) : List StratAgent → Except String (List StratAgent)
  | [] => Except.ok []
  | a :: rest =>
    match updateStrategy dt a with
    | Except.error e => Except.error e
    | Except.ok a2 =>
      match agentsPhase dt rest with
      | Except.error e => Except.error e
      | Except.ok rest2 => Except.ok (a2 :: rest2)

/-- An agent whose strategy always raises. -/
def throwingAgent : StratAgent :=
  { st := agentA0, timeAlive := 0,
    strategy := fun _ _ => Except.error "boom" }

/-- An agent whose strategy does nothing and never raises. -/
def benignAgent : StratAgent :=
  { st := { agentA0 with id := 1, team := Team.TEAM_B }, timeAlive := 0,
    strategy := fun _ s => Except.ok s }

/-! ## Weapon, magazine and reload (`server/gameplay/agent.py`) -/

/-- `AMMO_INFINITE` sentinel from `common/config.py`. -/
def AMMO_INFINITE : ℤ := 65535

/-- `NO_SHOOT` sentinel from `server/config.py`. -/
def NO_SHOOT : ℚ := -1

/-- `DEFAULT_SHOOT_DURATION` from `server/config.py` (0.8 s). -/
def DEFAULT_SHOOT_DURATION : ℚ := 4 / 5

/-- The weapon-related mutable fields of `Agent`: `current_ammo` (the
`AMMO_INFINITE` sentinel marks unlimited ammo), `magazine_size`,
`reload_duration`, `reload_timer` (None when not reloading),
`shoot_timer` (−1 when idle), and a count of the bullets this agent has
inserted into the shared bullets table (each `Bullet(...)` constructed by
`_fire_bullet`). -/
structure WeaponSt where
  currentAmmo : ℤ
  magazineSize : ℤ
  reloadDuration : ℚ
  reloadTimer : Option ℚ
  shootTimer : ℚ
  bulletsSpawned : ℕ
deriving DecidableEq, Repr

/-- `Agent.start_reload`: no-op when already reloading or ammo is
infinite; otherwise arms `reload_timer = reload_duration`. -/
def startReload (s : WeaponSt) : WeaponSt :=
  if s.reloadTimer ≠ none ∨ s.currentAmmo = AMMO_INFINITE then s
  else { s with reloadTimer := some s.reloadDuration }

/-- `Agent.load_bullet` (requestFire): ignored while reloading; with
infinite ammo or a non-empty magazine it arms `shoot_timer` (only when
the weapon is idle at `NO_SHOOT`); with an empty magazine it starts a
reload. -/
def loadBullet (s : WeaponSt) : WeaponSt :=
  if s.reloadTimer ≠ none then s
  else if s.currentAmmo = AMMO_INFINITE then
    if s.shootTimer = NO_SHOOT then
      { s with shootTimer := DEFAULT_SHOOT_DURATION }
    else s
  else if 0 < s.currentAmmo then
    if s.shootTimer = NO_SHOOT then
      { s with shootTimer := DEFAULT_SHOOT_DURATION }
    else s
  else startReload s

/-- `Agent._fire_bullet`: if finite ammo is exhausted, start a reload
instead of firing; otherwise construct a bullet (counted in
`bulletsSpawned`; muzzle position and ballistics are modelled with the
bullet itself), decrement finite ammo — starting a reload when the
magazine empties — and reset `shoot_timer` to `NO_SHOOT`. -/
def fireBullet (s : WeaponSt) : WeaponSt :=
  if s.currentAmmo ≠ AMMO_INFINITE ∧ s.currentAmmo ≤ 0 then
    { startReload s with shootTimer := NO_SHOOT }
  else
    let s1 := { s with bulletsSpawned := s.bulletsSpawned + 1 }
    let s2 :=
      if s1.currentAmmo ≠ AMMO_INFINITE then
        let na := max 0 (s1.currentAmmo - 1)
        let s3 := { s1 with currentAmmo := na }
        if na = 0 then startReload s3 else s3
      else s1
    { s2 with shootTimer := NO_SHOOT }

/-- The weapon-cooldown and reload steps of
`Agent._update_tick_before_strategy`: while `shoot_timer >= 0` it is
decremented and, on reaching `<= 0`, `_fire_bullet()` runs; afterwards an
active `reload_timer` is decremented and, on reaching `<= 0`, the
magazine refills (finite ammo only) and the timer clears. -/
def tickWeapon (dt : ℚ) (s : WeaponSt) : WeaponSt :=
  let s1 :=
    if 0 ≤ s.shootTimer then
      let s2 := { s with shootTimer := s.shootTimer - dt }
      if s2.shootTimer ≤ 0 then fireBullet s2 else s2
    else s
  match s1.reloadTimer with
  | none => s1
  | some r =>
    let r2 := r - dt
    if r2 ≤ 0 then
      if s1.currentAmmo ≠ AMMO_INFINITE then
        { s1 with currentAmmo := s1.magazineSize, reloadTimer := none }
      else { s1 with reloadTimer := none }
    else { s1 with reloadTimer := some r2 }

/-- A fresh finite-ammo agent's weapon state (constructed with `ammo=8`,
default magazine 8 and reload duration 1.5 s). -/
def weaponFresh : WeaponSt :=
  { currentAmmo := 8, magazineSize := 8, reloadDuration := 3 / 2,
    reloadTimer := none, shootTimer := NO_SHOOT, bulletsSpawned := 0 }

/-! ## Bullet-vs-agent collision resolution
(`server/gameplay/collision.py` and `server/gameplay/game_manager.py`) -/

/-- The slice of bullet state used by collision resolution
(`common/states/state_bullet.py` fields via `Bullet.state`, plus the
`damage` attribute of `Bullet`). -/
structure BulletSt where
  id : ℕ
  x : ℚ
  y : ℚ
  radius : ℚ
  owner : ℕ
  team : Team
  damage : ℚ
deriving DecidableEq, Repr

/-- `_circles_overlap` from `collision.py`: squared-distance comparison
`dx*dx + dy*dy < (r1+r2)*(r1+r2)`. -/
def circlesOverlap (x1 y1 r1 x2 y2 r2 : ℚ) : Bool :=
  (x1 - x2) * (x1 - x2) + (y1 - y2) * (y1 - y2) < (r1 + r2) * (r1 + r2)

/-- The inner loop of `find_bullet_agent_collisions` for one bullet:
agents equal to the bullet's owner or on the bullet's team are skipped;
the ids of the remaining agents whose circles overlap the bullet are
collected, in table order. -/
def bulletHitList (b : BulletSt) (agents : List AgentSt) : List ℕ :=
  (agents.filter (fun a =>
      a.id ≠ b.owner ∧ a.team ≠ b.team ∧
        circlesOverlap b.x b.y b.radius a.x a.y a.radius = true)).map
    (fun a => a.id)

/-- `find_bullet_agent_collisions`: the map from bullet id to hit list
(insertion order preserved, one entry per bullet). -/
def findBulletAgentCollisions (bullets : List BulletSt)
    (agents : List AgentSt) : List (ℕ × List ℕ) :=
  bullets.map (fun b => (b.id, bulletHitList b agents))

/-- The bullet-vs-agent block of `GameManager.update`: hit lists are
computed once from the pre-damage state; then, iterating bullets in
order, a bullet with an empty hit list is skipped (`continue`), otherwise
each agent on its hit list takes the bullet's damage and the bullet is
deleted from the table.  Result: the agent table after damage and the
bullet table after removals. -/
def resolveBulletHits (bullets : List BulletSt) (agents : List AgentSt) :
    List AgentSt × List BulletSt :=
  let damaged := bullets.foldl
    (fun acc b =>
      if bulletHitList b agents = [] then acc
      else acc.map (fun a =>
        if a.id ∈ bulletHitList b agents then a.takeDamage b.damage else a))
    agents
  (damaged, bullets.filter (fun b => bulletHitList b agents = []))

/-- The health an agent ends the damage phase with: its old health
reduced, in table order, by the damage of every bullet whose hit list
contains the agent's id, clamping at zero after every hit. -/
def stackedHealth (bullets : List BulletSt) (agents : List AgentSt)
    (a : AgentSt) : ℚ :=
  (bullets.filter (fun b => decide (a.id ∈ bulletHitList b agents))).foldl
    (fun h b => max 0 (h - b.damage)) a.health

/-- A second team-A agent sharing agent 0's position. -/
def agentA1 : AgentSt := { agentA0 with id := 1 }

/-- A concrete team-A bullet owned by agent 0, overlapping both agents. -/
def bulletEx : BulletSt :=
  { id := 0, x := 100, y := 100, radius := 5, owner := 0,
    team := Team.TEAM_A, damage := 25 }

/-! ## KOTH scoring (`server/gameplay/game_manager_koth.py`,
`GameManagerKOTH.update_scoring`, with constants from
`common/koth_config.py`) -/

/-- `KOTH_POINTS_PER_SECOND` (10.0). -/
def KOTH_POINTS_PER_SECOND : ℚ := 10

/-- `KOTH_SCORING_INTERVAL` (0.5 s). -/
def KOTH_SCORING_INTERVAL : ℚ := 1 / 2

/-- `KOTHZoneStatus` from `common/states/state_koth.py`. -/
inductive ZoneStatus where
  | NEUTRAL
  | TEAM_A
  | TEAM_B
  | CONTESTED
deriving DecidableEq, Repr

/-- The KOTH score state touched by `update_scoring`: both team scores
and the private `scoring_timer` accumulator. -/
structure KothScore where
  teamAScore : ℚ
  teamBScore : ℚ
  scoringTimer : ℚ
deriving DecidableEq, Repr

/-- The `while self.scoring_timer >= KOTH_SCORING_INTERVAL:` loop of
`update_scoring`: each iteration subtracts one quantum and, when the zone
status is `TEAM_A` or `TEAM_B`, awards
`KOTH_POINTS_PER_SECOND * KOTH_SCORING_INTERVAL` points to that team;
`CONTESTED` and `NEUTRAL` award nothing. -/
def scoringLoop (status : ZoneStatus) (timer scoreA scoreB : ℚ) :
    ℚ × ℚ × ℚ :=
  if h : KOTH_SCORING_INTERVAL ≤ timer then
    if status = ZoneStatus.TEAM_A then
      scoringLoop status (timer - KOTH_SCORING_INTERVAL)
        (scoreA + KOTH_POINTS_PER_SECOND * KOTH_SCORING_INTERVAL) scoreB
    else if status = ZoneStatus.TEAM_B then
      scoringLoop status (timer - KOTH_SCORING_INTERVAL) scoreA
        (scoreB + KOTH_POINTS_PER_SECOND * KOTH_SCORING_INTERVAL)
    else
      scoringLoop status (timer - KOTH_SCORING_INTERVAL) scoreA scoreB
  else (timer, scoreA, scoreB)
termination_by (⌊timer * 2⌋).toNat
decreasing_by
  all_goals
    simp only [KOTH_SCORING_INTERVAL] at h ⊢
    rw [show (timer - 1 / 2) * 2 = timer * 2 - 1 by ring, Int.floor_sub_one]
    have h3 : (1 : ℤ) ≤ ⌊timer * 2⌋ := Int.le_floor.mpr (by push_cast; linarith)
    omega

/-- `GameManagerKOTH.update_scoring(dt)`: accumulate
`scoring_timer += dt`, then run the quantum-draining loop. -/
def updateScoring (status : ZoneStatus) (dt : ℚ) (s : KothScore) :
    KothScore :=
  let r := scoringLoop status (s.scoringTimer + dt) s.teamAScore s.teamBScore
  { teamAScore := r.2.1, teamBScore := r.2.2, scoringTimer := r.1 }

/-- A sequence of simulation ticks feeding `update_scoring` under a fixed
zone status (the claim's scenario: one team alone in the zone all
along). -/
def runScoringTicks (status : ZoneStatus) (dts : List ℚ) (s : KothScore) :
    KothScore :=
  dts.foldl (fun st d => updateScoring status d st) s

/-! ## CTF flags and captures (`server/gameplay/game_manager_ctf.py`,
with constants from `common/ctf_config.py`) -/

/-- `CTF_FLAG_TEAM_A_BASE_X` / `..._Y` (100, 360). -/
def CTF_FLAG_TEAM_A_BASE_X : ℚ := 100

def CTF_FLAG_TEAM_A_BASE_Y : ℚ := 360

/-- `CTF_FLAG_TEAM_B_BASE_X` / `..._Y` (1180, 360). -/
def CTF_FLAG_TEAM_B_BASE_X : ℚ := 1180

def CTF_FLAG_TEAM_B_BASE_Y : ℚ := 360

/-- `CTF_FLAG_PICKUP_RADIUS` (30). -/
def CTF_FLAG_PICKUP_RADIUS : ℚ := 30

/-- `CTF_FLAG_RETURN_RADIUS` (150). -/
def CTF_FLAG_RETURN_RADIUS : ℚ := 150

/-- `CTF_POINTS_PER_CAPTURE` (1). -/
def CTF_POINTS_PER_CAPTURE : ℤ := 1

/-- `FlagState` from `game_manager_ctf.py`. -/
inductive FlagState where
  | AT_BASE
  | CARRIED
  | DROPPED
deriving DecidableEq, Repr

/-- `CTFFlag`: a flag's owning team, base, current position, state,
carrier and drop timer. -/
structure CTFFlag where
  team : Team
  baseX : ℚ
  baseY : ℚ
  x : ℚ
  y : ℚ
  flagState : FlagState
  carrierId : Option ℕ
  dropTimer : ℚ
deriving DecidableEq, Repr

/-- `CTFFlag.reset_to_base`. -/
def CTFFlag.resetToBase (f : CTFFlag) : CTFFlag :=
  { f with
    x := f.baseX
    y := f.baseY
    flagState := FlagState.AT_BASE
    carrierId := none
    dropTimer := 0 }

/-- `CTFFlag.pickup`. -/
def CTFFlag.pickupBy (f : CTFFlag) (agentId : ℕ) (ax ay : ℚ) : CTFFlag :=
  { f with
    flagState := FlagState.CARRIED
    carrierId := some agentId
    x := ax
    y := ay
    dropTimer := 0 }

/-- The CTF state touched by `update_flags`: both flags and both capture
counters (`team_a_captures`, `team_b_captures`). -/
structure CtfSt where
  flagA : CTFFlag
  flagB : CTFFlag
  teamACaptures : ℤ
  teamBCaptures : ℤ
deriving DecidableEq, Repr

/-- `enemy_flag = self.flag_team_b if agent.team == TEAM_A else
self.flag_team_a`. -/
def enemyFlagOf (st : CtfSt) (t : Team) : CTFFlag :=
  if t = Team.TEAM_A then st.flagB else st.flagA

/-- `own_flag = self.flag_team_a if agent.team == TEAM_A else
self.flag_team_b`. -/
def ownFlagOf (st : CtfSt) (t : Team) : CTFFlag :=
  if t = Team.TEAM_A then st.flagA else st.flagB

/-- Write back the flag that `enemyFlagOf` designates. -/
def setEnemyFlag (st : CtfSt) (t : Team) (f : CTFFlag) : CtfSt :=
  if t = Team.TEAM_A then { st with flagB := f } else { st with flagA := f }

/-- Write back the flag that `ownFlagOf` designates. -/
def setOwnFlag (st : CtfSt) (t : Team) (f : CTFFlag) : CtfSt :=
  if t = Team.TEAM_A then { st with flagA := f } else { st with flagB := f }

/-- `own_base_x/y` selection in the capture check. -/
def ownBaseX (t : Team) : ℚ :=
  if t = Team.TEAM_A then CTF_FLAG_TEAM_A_BASE_X else CTF_FLAG_TEAM_B_BASE_X

def ownBaseY (t : Team) : ℚ :=
  if t = Team.TEAM_A then CTF_FLAG_TEAM_A_BASE_Y else CTF_FLAG_TEAM_B_BASE_Y

/-- Squared distance; the source compares `math.sqrt(dsq) <= R`, embedded
as `dsq ≤ R²`. -/
def distSq (x1 y1 x2 y2 : ℚ) : ℚ :=
  (x1 - x2) * (x1 - x2) + (y1 - y2) * (y1 - y2)

/-- `GameManagerCTF._capture_flag(team, flag)`: bump the capturing team's
counter by `CTF_POINTS_PER_CAPTURE` (a `team != TEAM_A` capturer bumps
team B's counter, as in the source's `else` branch) and reset the
captured enemy flag to its base. -/
def captureFlag (st : CtfSt) (t : Team) : CtfSt :=
  let st2 :=
    if t = Team.TEAM_A then
      { st with teamACaptures := st.teamACaptures + CTF_POINTS_PER_CAPTURE }
    else
      { st with teamBCaptures := st.teamBCaptures + CTF_POINTS_PER_CAPTURE }
  setEnemyFlag st2 t ((enemyFlagOf st2 t).resetToBase)

/-- The pickup substep of the per-agent body of `update_flags`: an agent
within `CTF_FLAG_PICKUP_RADIUS` of the enemy flag picks it up unless that
flag is already `CARRIED`. -/
def pickupStep (st : CtfSt) (a : AgentSt) : CtfSt :=
  let ef := enemyFlagOf st a.team
  if ef.flagState ≠ FlagState.CARRIED ∧
      distSq a.x a.y ef.x ef.y ≤ CTF_FLAG_PICKUP_RADIUS ^ 2 then
    setEnemyFlag st a.team (ef.pickupBy a.id a.x a.y)
  else st

/-- The own-flag-return substep: an agent within
`CTF_FLAG_PICKUP_RADIUS` of its own `DROPPED` flag returns it to base. -/
def ownReturnStep (st : CtfSt) (a : AgentSt) : CtfSt :=
  let f := ownFlagOf st a.team
  if f.flagState = FlagState.DROPPED ∧
      distSq a.x a.y f.x f.y ≤ CTF_FLAG_PICKUP_RADIUS ^ 2 then
    setOwnFlag st a.team f.resetToBase
  else st

/-- The per-agent body of the `for agent in self.agents.values():` loop
of `GameManagerCTF.update_flags`: dead agents are skipped; then pickup,
then the capture check — a carrier whose own flag is not `AT_BASE`
`continue`s (skipping even the own-flag-return substep), otherwise a
carrier within `CTF_FLAG_RETURN_RADIUS` of their own base captures — and
finally the own-flag-return substep. -/
def processAgentFlags (st : CtfSt) (a : AgentSt) : CtfSt :=
  if ¬ a.isAlive then st
  else
    let st1 := pickupStep st a
    if (enemyFlagOf st1 a.team).carrierId = some a.id then
      if (ownFlagOf st1 a.team).flagState ≠ FlagState.AT_BASE then st1
      else
        let st2 :=
          if distSq a.x a.y (ownBaseX a.team) (ownBaseY a.team) ≤
              CTF_FLAG_RETURN_RADIUS ^ 2 then
            captureFlag st1 a.team
          else st1
        ownReturnStep st2 a
    else ownReturnStep st1 a

/-- The capture counter `_capture_flag` bumps for a given team. -/
def capturesOf (st : CtfSt) (t : Team) : ℤ :=
  if t = Team.TEAM_A then st.teamACaptures else st.teamBCaptures

/-- Team A's flag sitting at its base. -/
def flagAEx : CTFFlag :=
  { team := Team.TEAM_A, baseX := 100, baseY := 360, x := 100, y := 360,
    flagState := FlagState.AT_BASE, carrierId := none, dropTimer := 0 }

/-- Team B's flag carried by agent 0 at team A's base. -/
def flagBEx : CTFFlag :=
  { team := Team.TEAM_B, baseX := 1180, baseY := 360, x := 100, y := 360,
    flagState := FlagState.CARRIED, carrierId := some 0, dropTimer := 0 }

/-- A CTF state: A's flag home, B's flag carried by agent 0. -/
def ctfEx : CtfSt :=
  { flagA := flagAEx, flagB := flagBEx, teamACaptures := 0,
    teamBCaptures := 0 }

/-- Agent 0 standing on team A's base. -/
def agentCarrier : AgentSt := { agentA0 with y := 360 }

/-! ## Entity-snapshot decoding (`common/states/state_entity.py`,
`StateEntity.unpack_entities`, with constants from `common/config.py`) -/

/-- `MAX_ENTITY_ID` (65535). -/
def MAX_ENTITY_ID : ℕ := 65535

/-- `ENTITY_PACKED_SIZE` (25 bytes per record). -/
def ENTITY_PACKED_SIZE : ℕ := 25

/-- An IEEE-754 single-precision value as `struct.unpack` produces it:
NaN, a signed infinity, or an exact finite rational. -/
inductive F32 where
  | nan
  | inf (neg : Bool)
  | fin (val : ℚ)
deriving DecidableEq, Repr

/-- Big-endian `u16` from two bytes (`struct.unpack("!H", ...)`). -/
def decodeU16 (b0 b1 : ℕ) : ℕ := b0 * 256 + b1

/-- Big-endian `f32` from four bytes (`struct.unpack("!f", ...)`):
sign/exponent/mantissa split, with subnormals, infinities and NaN. -/
def decodeF32 (b0 b1 b2 b3 : ℕ) : F32 :=
  let bits : ℕ := ((b0 * 256 + b1) * 256 + b2) * 256 + b3
  let sign : ℕ := bits / 2 ^ 31
  let expo : ℕ := (bits / 2 ^ 23) % 256
  let frac : ℕ := bits % 2 ^ 23
  if expo = 255 then
    if frac = 0 then F32.inf (sign = 1) else F32.nan
  else
    let mag : ℚ :=
      if expo = 0 then (frac : ℚ) / 2 ^ 149
      else (((2 ^ 23 + frac : ℕ) : ℚ) * 2 ^ expo) / 2 ^ 150
    F32.fin (if sign = 1 then -mag else mag)

/-- The Python comparison `radius <= 0` on a decoded float: false for NaN
(all comparisons with NaN are false), true for `-inf`, `-0.0`, `0.0` and
negative finite values. -/
def F32.nonpos : F32 → Bool
  | F32.nan => false
  | F32.inf neg => neg
  | F32.fin q => q ≤ 0

/-- One decoded entity record
(`id:u16 | x:f32 | y:f32 | radius:f32 | gunAngle:f32 | team:u8 |
health:f32 | ammo:u16`). -/
structure EntityRec where
  idEntity : ℕ
  x : F32
  y : F32
  radius : F32
  gunAngle : F32
  team : ℕ
  health : F32
  ammo : ℕ
deriving DecidableEq, Repr

/-- `[t.value for t in Team]`. -/
def validTeams : List ℕ := [0, 1, 2]

/-- `struct.unpack("!HffffBfH", chunk)` on one 25-byte record. -/
def decodeRecord (chunk : List ℕ) : Option EntityRec :=
  match chunk with
  | [i0, i1, x0, x1, x2, x3, y0, y1, y2, y3, r0, r1, r2, r3,
     g0, g1, g2, g3, tm, h0, h1, h2, h3, a0, a1] =>
    some
      { idEntity := decodeU16 i0 i1
        x := decodeF32 x0 x1 x2 x3
        y := decodeF32 y0 y1 y2 y3
        radius := decodeF32 r0 r1 r2 r3
        gunAngle := decodeF32 g0 g1 g2 g3
        team := tm
        health := decodeF32 h0 h1 h2 h3
        ammo := decodeU16 a0 a1 }
  | _ => none

/-- The record loop of `unpack_entities`: decode `n` consecutive 25-byte
records, raising `ValueError` when a record's radius is nonpositive, its
id exceeds `MAX_ENTITY_ID`, or its team byte is unknown. -/
def decodeRecords : ℕ → List ℕ → Except String (List EntityRec)
  | 0, _ => Except.ok []
  | n + 1, data =>
    match decodeRecord (data.take 25) with
    | none => Except.error "Invalid packet size"
    | some e =>
      if e.radius.nonpos then Except.error "Invalid radius"
      else if ¬ (e.idEntity ≤ MAX_ENTITY_ID) then
        Except.error "Invalid entity ID"
      else if ¬ (e.team ∈ validTeams) then Except.error "Invalid team"
      else
        match decodeRecords n (data.drop 25) with
        | Except.error s => Except.error s
        | Except.ok rest => Except.ok (e :: rest)

/-- `StateEntity.unpack_entities`: inputs shorter than 2 bytes return the
empty list; otherwise the leading `u16` count fixes the expected size
`2 + count·25`, any other length raises, and the records are decoded
with validation. -/
def unpackEntities (data : List ℕ) : Except String (List EntityRec) :=
  match data with
  | c0 :: c1 :: rest =>
    let n := decodeU16 c0 c1
    if (c0 :: c1 :: rest).length ≠ 2 + n * ENTITY_PACKED_SIZE then
      Except.error "Invalid packet size"
    else decodeRecords n rest
  | _ => Except.ok []

/-- Does a 25-byte chunk carry an invalid field (spec's validation list:
radius ≤ 0, id out of [0, 65535], unknown team)?  A chunk that is not a
complete record also counts as invalid. -/
def recordInvalid (chunk : List ℕ) : Bool :=
  match decodeRecord chunk with
  | none => true
  | some e =>
    e.radius.nonpos || decide (MAX_ENTITY_ID < e.idEntity) ||
      ! (decide (e.team ∈ validTeams))

/-- The `n` consecutive 25-byte chunks of a byte string. -/
def chunks25 : ℕ → List ℕ → List (List ℕ)
  | 0, _ => []
  | n + 1, data => data.take 25 :: chunks25 n (data.drop 25)

/-! ## FOV ray casting (`server/gameplay/agent.py`, `Agent._cast_ray`
and `Agent.detect_enemies`, with constants from `common/config.py`) -/

/-- `FOV_RATIO` (40.0): FOV radius = agent radius × this factor. -/
def FOV_RATIO_VAL : ℚ := 40

/-- `RAY_STEP_DIVISOR` (2): ray step = grid unit / divisor. -/
def RAY_STEP_DIVISOR_VAL : ℚ := 2

/-- What `_cast_ray` reports as `hit_type`: `"wall"` or `"agent"` with
the hit agent's id. -/
inductive RayHit where
  | wall
  | agent (id : ℕ)
deriving DecidableEq, Repr

/-- The candidate pre-filter of `_cast_ray`: every agent other than the
caster whose centre is within `fov_radius + its radius` of the ray
origin, in table order. -/
def castRayCandidates (agents : List AgentSt) (selfId : ℕ)
    (startX startY fovRadius : ℚ) : List AgentSt :=
  agents.filter (fun ag =>
    ag.id ≠ selfId ∧
      (ag.x - startX) * (ag.x - startX) + (ag.y - startY) * (ag.y - startY)
        < (fovRadius + ag.radius) ^ 2)

/-- The `while traveled < max_distance:` march of `_cast_ray`: step the
sample point, then return on a wall cell first, else on the first
candidate agent whose body contains the sample point, else keep
marching.  `fuel` bounds the recursion; `castRay` passes enough fuel for
the whole distance, and the loop exits at `traveled ≥ max_distance`
exactly as the source does. -/
def rayMarch (w : StateWalls) (cands : List AgentSt)
    (dx dy stepSize maxDist : ℚ) :
    ℕ → ℚ → ℚ → ℚ → Option (ℚ × RayHit)
  | 0, _, _, _ => none
  | fuel + 1, traveled, curX, curY =>
    if traveled < maxDist then
      let nx := curX + dx * stepSize
      let ny := curY + dy * stepSize
      let t2 := traveled + stepSize
      if w.hasWallAtPos nx ny then some (t2, RayHit.wall)
      else
        match cands.find? (fun ag =>
            decide ((nx - ag.x) ^ 2 + (ny - ag.y) ^ 2 < ag.radius ^ 2)) with
        | some ag => some (t2, RayHit.agent ag.id)
        | none => rayMarch w cands dx dy stepSize maxDist fuel t2 nx ny
    else none

/-- `Agent._cast_ray`, with the ray direction given by its components
`(dx, dy)` (the source computes `dx = cos(angle)`, `dy = -sin(angle)`
from the angle; the march itself is angle-agnostic).  Step size is
`grid_unit / RAY_STEP_DIVISOR`; the candidate list uses
`fov_radius = FOV_RATIO * self.radius`. -/
def castRay (w : StateWalls) (agents : List AgentSt) (selfId : ℕ)
    (selfRadius : ℚ) (startX startY dx dy maxDist : ℚ) :
    Option (ℚ × RayHit) :=
  let stepSize := (w.gridUnit : ℚ) / RAY_STEP_DIVISOR_VAL
  let fovRadius := FOV_RATIO_VAL * selfRadius
  let cands := castRayCandidates agents selfId startX startY fovRadius
  rayMarch w cands dx dy stepSize maxDist
    ((⌈maxDist / stepSize⌉).toNat + 1) 0 startX startY

/-- The per-ray body of `Agent.detect_enemies`: a ray result of type
`"agent"` contributes the hit agent's id iff that id is in the agent
table with a team different from the perceiver's. -/
def rayDetect (agents : List AgentSt) (selfTeam : Team)
    (hit : Option (ℚ × RayHit)) : Finset ℕ :=
  match hit with
  | some (_, RayHit.agent aid) =>
    match agents.find? (fun ag => ag.id = aid) with
    | some ag => if ag.team ≠ selfTeam then {aid} else ∅
    | none => ∅
  | _ => ∅

/-- A wall-free world with the source's dimensions and grid unit. -/
def wallsEmpty : StateWalls :=
  { gridUnit := 5, worldWidth := 1280, worldHeight := 720,
    cells := ∅, changeBuffer := [] }

/-- A same-team agent 10 px east of the perceiver. -/
def fovFriendly : AgentSt := { agentA0 with id := 1, x := 110 }

/-- An opposing-team agent further east, behind the friendly on the
eastward ray. -/
def fovEnemy : AgentSt :=
  { agentA0 with id := 2, x := 124, team := Team.TEAM_B }

/-- A world with a single wall cell just east of (100,100). -/
def wallsOne : StateWalls := { wallsEmpty with cells := {(20, 20)} }

/-! ## Helper lemmas, claim theorems, counterexamples, witnesses -/

/-- Deduplicating a nonempty constant list yields the singleton. -/
lemma dedup_of_constant {α : Type} [DecidableEq α] :
    ∀ (l : List α) (t : α), l ≠ [] → (∀ x ∈ l, x = t) → l.dedup = [t] := by
  intro l t hne hall
  induction l with
  | nil => exact absurd rfl hne
  | cons a rest ih =>
    have ha : a = t := hall a (List.mem_cons_self a rest)
    subst ha
    by_cases hrest : rest = []
    · subst hrest; simp
    · have hall2 : ∀ x ∈ rest, x = a := fun x hx =>
        hall x (List.mem_cons_of_mem a hx)
      have hd := ih hrest hall2
      have hmem : a ∈ rest := by
        have : a ∈ rest.dedup := by rw [hd]; exact List.mem_singleton.mpr rfl
        exact List.mem_dedup.mp this
      rw [List.dedup_cons_of_mem hmem, hd]

/-! ### Claim C10 -/

/-- C10: wall mutations are idempotent and the change buffer records only
effective mutations.  For an in-bounds cell: `add_wall` on an existing
wall and `remove_wall` on a missing wall change nothing; an `(ADD,cx,cy)`
or `(REMOVE,cx,cy)` entry is appended exactly when the call changed the
cell set and `track_change` is true. -/
theorem c10_wall_mutations (w : StateWalls) (cx cy : ℤ) (t : Bool)
    (hv : w.isValidCell cx cy = true) :
    ((cx, cy) ∈ w.cells → w.addWall cx cy t = w) ∧
    ((cx, cy) ∉ w.cells → w.removeWall cx cy t = w) ∧
    ((w.addWall cx cy t).cells =
      if (cx, cy) ∈ w.cells then w.cells else insert (cx, cy) w.cells) ∧
    ((w.removeWall cx cy t).cells = w.cells.erase (cx, cy)) ∧
    ((w.addWall cx cy t).changeBuffer =
      if (cx, cy) ∉ w.cells ∧ t = true then
        w.changeBuffer ++ [(WallOp.ADD, cx, cy)]
      else w.changeBuffer) ∧
    ((w.removeWall cx cy t).changeBuffer =
      if (cx, cy) ∈ w.cells ∧ t = true then
        w.changeBuffer ++ [(WallOp.REMOVE, cx, cy)]
      else w.changeBuffer) := by
  refine ⟨?_, ?_, ?_, ?_, ?_, ?_⟩ <;>
    simp only [StateWalls.addWall, StateWalls.removeWall, hv] <;>
    try intro hmem
  · simp [hmem]
  · simp [hmem, Finset.erase_eq_of_not_mem hmem]
  · by_cases hmem : (cx, cy) ∈ w.cells <;> simp [hmem]
  · by_cases hmem : (cx, cy) ∈ w.cells <;>
      simp [hmem, Finset.erase_eq_of_not_mem]
  · by_cases hmem : (cx, cy) ∈ w.cells <;> cases t <;> simp [hmem]
  · by_cases hmem : (cx, cy) ∈ w.cells <;> cases t <;> simp [hmem]

/-- Witness for C10 at a concrete in-bounds cell of a concrete state. -/
theorem c10_wall_mutations_witness :
    wallsEx.isValidCell 3 4 = true ∧
    (((3, 4) ∈ wallsEx.cells → wallsEx.addWall 3 4 true = wallsEx) ∧
     ((3, 4) ∉ wallsEx.cells → wallsEx.removeWall 3 4 true = wallsEx) ∧
     ((wallsEx.addWall 3 4 true).cells =
       if (3, 4) ∈ wallsEx.cells then wallsEx.cells
       else insert (3, 4) wallsEx.cells) ∧
     ((wallsEx.removeWall 3 4 true).cells = wallsEx.cells.erase (3, 4)) ∧
     ((wallsEx.addWall 3 4 true).changeBuffer =
       if (3, 4) ∉ wallsEx.cells ∧ true = true then
         wallsEx.changeBuffer ++ [(WallOp.ADD, 3, 4)]
       else wallsEx.changeBuffer) ∧
     ((wallsEx.removeWall 3 4 true).changeBuffer =
       if (3, 4) ∈ wallsEx.cells ∧ true = true then
         wallsEx.changeBuffer ++ [(WallOp.REMOVE, 3, 4)]
       else wallsEx.changeBuffer)) :=
  ⟨by decide, c10_wall_mutations wallsEx 3 4 true (by decide)⟩

/-! ### Claim C2 -/

/-- C2 counterexample: with zero surviving agents the win-condition block
does nothing — the winner stays unset (not NEUTRAL) and the match keeps
running, contradicting the claimed draw handling. -/
theorem c2_no_draw_counterexample :
    survivalWinPhase [] none true = (none, true) ∧
    survivalWinPhase [] none true ≠ (some Team.NEUTRAL, false) := by
  constructor <;> decide

/-- C2 (amended): if exactly one team is represented by the surviving
agents, that team is recorded as winner and the match stops; if no agents
survive, the code records nothing — `winner_team` and `is_running` are
left unchanged (there is no draw branch). -/
theorem c2_survival_win (agents : List AgentSt) (winner : Option Team)
    (running : Bool) :
    (agents = [] → survivalWinPhase agents winner running =
      (winner, running)) ∧
    (∀ t : Team, agents ≠ [] → (∀ a ∈ agents, a.team = t) →
      survivalWinPhase agents winner running = (some t, false)) := by
  constructor
  · intro h; subst h; simp [survivalWinPhase]
  · intro t hne hall
    have hmapne : agents.map (fun a => a.team) ≠ [] := by
      simpa using hne
    have hmapall : ∀ x ∈ agents.map (fun a => a.team), x = t := by
      intro x hx
      rcases List.mem_map.mp hx with ⟨a, ha, rfl⟩
      exact hall a ha
    have hd := dedup_of_constant (agents.map (fun a => a.team)) t hmapne hmapall
    simp [survivalWinPhase, hd]

/-- Witness for C2 at a concrete one-agent state. -/
theorem c2_survival_win_witness :
    ([agentA0] ≠ ([] : List AgentSt)) ∧ (∀ a ∈ [agentA0], a.team = Team.TEAM_A) ∧
    survivalWinPhase [agentA0] none true = (some Team.TEAM_A, false) :=
  ⟨by decide, by decide,
    (c2_survival_win [agentA0] none true).2 Team.TEAM_A (by decide) (by decide)⟩

/-! ### Claim C3 -/

/-- C3 counterexample: a disconnection-triggered cancellation still
broadcasts `GAME_END` (with winner byte 0) to the remaining clients —
the `finally:` block runs on every exit path, so GAME_END is not
restricted to natural ends. -/
theorem c3_game_end_sent_on_cancel :
    gameLoopTeardown LoopExit.cancelled none = [NetMsg.gameEnd 0] ∧
    gameLoopTeardown LoopExit.cancelled none ≠ [] := by
  constructor <;> decide

/-- C3 (amended): the GAME_END broadcast is unconditional — every exit of
the game loop, natural or disconnection-triggered, sends exactly one
`GAME_END` carrying the recorded winner team id, or 0 when no winner was
recorded. -/
theorem c3_game_end_always (cause : LoopExit) (w : Option ℕ) :
    gameLoopTeardown cause w = [NetMsg.gameEnd (w.getD 0)] := by
  cases cause <;> rfl

/-! ### Claim C4 -/

/-- C4 counterexample: with a first agent whose strategy raises, the
manager's agent phase propagates the exception — the tick does not
complete and the second agent is never updated, contradicting the claim
that strategy exceptions are caught at the manager boundary. -/
theorem c4_strategy_fault_propagates :
    agentsPhase 1 [throwingAgent, benignAgent] = Except.error "boom" ∧
    ¬ ∃ l, agentsPhase 1 [throwingAgent, benignAgent] = Except.ok l := by
  refine ⟨rfl, ?_⟩
  rintro ⟨l, hl⟩
  rw [show agentsPhase 1 [throwingAgent, benignAgent] =
    Except.error "boom" from rfl] at hl
  exact Except.noConfusion hl

/-- C4 (amended): a strategy exception is NOT caught at the game-manager
boundary: if every agent before `a` updates cleanly and `a`'s update
raises `e`, the whole agent phase of `GameManager.update` raises `e`,
aborting the tick — the agents after `a` do not update. -/
theorem c4_strategy_fault_aborts_tick (dt : ℚ) (pre post : List StratAgent)
    (a : StratAgent) (e : String)
    (hpre : ∀ p ∈ pre, ∃ p2, updateStrategy dt p = Except.ok p2)
    (ha : updateStrategy dt a = Except.error e) :
    agentsPhase dt (pre ++ a :: post) = Except.error e := by
  induction pre with
  | nil => simp [agentsPhase, ha]
  | cons p rest ih =>
    obtain ⟨p2, hp2⟩ := hpre p (List.mem_cons_self p rest)
    have hrest : ∀ q ∈ rest, ∃ q2, updateStrategy dt q = Except.ok q2 :=
      fun q hq => hpre q (List.mem_cons_of_mem p hq)
    simp [agentsPhase, hp2, ih hrest]

/-- Witness for C4: the amended theorem at the two-agent fixture. -/
theorem c4_strategy_fault_aborts_tick_witness :
    (∀ p ∈ ([] : List StratAgent), ∃ p2, updateStrategy 1 p = Except.ok p2) ∧
    updateStrategy 1 throwingAgent = Except.error "boom" ∧
    agentsPhase 1 ([] ++ throwingAgent :: [benignAgent]) =
      Except.error "boom" :=
  ⟨fun p hp => absurd hp (List.not_mem_nil p), rfl,
    c4_strategy_fault_aborts_tick 1 [] [benignAgent] throwingAgent "boom"
      (fun p hp => absurd hp (List.not_mem_nil p)) rfl⟩

/-! ### Claim C5 -/

/-- C5 counterexample: `requestFire` followed by `startReload` leaves a
shot cooldown pending while a reload is in progress; the next tick fires
that bullet even though `reload_timer` is not `None` throughout the tick
(it is `1.5` entering the tick and `0.5` after it), violating the claimed
invariant. -/
theorem c5_fires_during_reload :
    (startReload (loadBullet weaponFresh)).reloadTimer = some (3 / 2) ∧
    (startReload (loadBullet weaponFresh)).bulletsSpawned = 0 ∧
    (tickWeapon 1 (startReload (loadBullet weaponFresh))).reloadTimer =
      some (1 / 2) ∧
    (tickWeapon 1 (startReload (loadBullet weaponFresh))).bulletsSpawned
      = 1 := by
  refine ⟨?_, ?_, ?_, ?_⟩ <;>
    norm_num [tickWeapon, startReload, loadBullet, fireBullet, weaponFresh,
      AMMO_INFINITE, NO_SHOOT, DEFAULT_SHOOT_DURATION]

/-- C5 (amended): while `reload_timer ≠ None`, `requestFire`/`load_bullet`
is a no-op (no new shot can be initiated during a reload), and a tick
spawns no bullet unless a shot cooldown was already pending
(`shoot_timer ≥ 0`) when the tick began — but a cooldown armed before
`startReload` was issued does fire its bullet during the reload. -/
theorem c5_reload_no_new_shot (s : WeaponSt) (dt : ℚ)
    (hr : s.reloadTimer ≠ none) :
    loadBullet s = s ∧
    (s.shootTimer < 0 →
      (tickWeapon dt s).bulletsSpawned = s.bulletsSpawned) := by
  constructor
  · simp [loadBullet, hr]
  · intro hs
    have hns : ¬ (0 ≤ s.shootTimer) := not_le.mpr hs
    unfold tickWeapon
    simp only [hns, if_false]
    cases hrt : s.reloadTimer with
    | none => simp
    | some r =>
      by_cases hle : r - dt ≤ 0 <;>
        by_cases hia : s.currentAmmo ≠ AMMO_INFINITE <;>
        simp [hle, hia]

/-- Witness for C5 at a mid-reload idle weapon state. -/
theorem c5_reload_no_new_shot_witness :
    ({ weaponFresh with reloadTimer := some 1 } : WeaponSt).reloadTimer
      ≠ none ∧
    loadBullet { weaponFresh with reloadTimer := some 1 } =
      { weaponFresh with reloadTimer := some 1 } ∧
    (({ weaponFresh with reloadTimer := some 1 } : WeaponSt).shootTimer < 0 →
      (tickWeapon (1 / 4)
        { weaponFresh with reloadTimer := some 1 }).bulletsSpawned =
      ({ weaponFresh with reloadTimer := some 1 } : WeaponSt).bulletsSpawned) :=
  ⟨by decide,
    (c5_reload_no_new_shot { weaponFresh with reloadTimer := some 1 } (1 / 4)
      (by decide)).1,
    (c5_reload_no_new_shot { weaponFresh with reloadTimer := some 1 } (1 / 4)
      (by decide)).2⟩

/-- Membership in a bullet's hit list names an agent of the table that is
neither the owner nor on the bullet's team and overlaps the bullet. -/
lemma mem_bulletHitList {b : BulletSt} {agents : List AgentSt} {i : ℕ} :
    i ∈ bulletHitList b agents ↔
      ∃ a ∈ agents, a.id = i ∧ a.id ≠ b.owner ∧ a.team ≠ b.team ∧
        circlesOverlap b.x b.y b.radius a.x a.y a.radius = true := by
  simp only [bulletHitList, List.mem_map, List.mem_filter]
  constructor
  · rintro ⟨a, ⟨ha, hcond⟩, rfl⟩
    simp only [decide_eq_true_eq] at hcond
    exact ⟨a, ha, rfl, hcond.1, hcond.2.1, hcond.2.2⟩
  · rintro ⟨a, ha, rfl, h1, h2, h3⟩
    exact ⟨a, ⟨ha, by simp [h1, h2, h3]⟩, rfl⟩

/-- The per-agent effect of the damage fold: each agent ends with its
health reduced, in order, by every bullet whose hit list contains its id
(clamped at zero at each step), and nothing else changes. -/
lemma damage_foldl_per_agent (bullets : List BulletSt)
    (agents : List AgentSt) :
    ∀ a : AgentSt,
      bullets.foldl
        (fun a2 b =>
          if bulletHitList b agents = [] then a2
          else if a2.id ∈ bulletHitList b agents then a2.takeDamage b.damage
          else a2) a
      = { a with health := stackedHealth bullets agents a } := by
  induction bullets with
  | nil => intro a; rfl
  | cons b rest ih =>
    intro a
    unfold stackedHealth
    by_cases hm : a.id ∈ bulletHitList b agents
    · have hbe : bulletHitList b agents ≠ [] := by
        intro h; rw [h] at hm; exact absurd hm (List.not_mem_nil _)
      simp only [List.foldl_cons, if_neg hbe, if_pos hm, List.filter_cons,
        decide_eq_true_eq, hm, if_pos]
      have h2 := ih (a.takeDamage b.damage)
      unfold stackedHealth at h2
      simpa [AgentSt.takeDamage] using h2
    · have h2 := ih a
      unfold stackedHealth at h2
      by_cases hbe : bulletHitList b agents = []
      · simp only [List.foldl_cons, if_pos hbe, List.filter_cons,
          decide_eq_true_eq, hm, if_false]
        simpa using h2
      · simp only [List.foldl_cons, if_neg hbe, if_neg hm, List.filter_cons,
          decide_eq_true_eq, hm, if_false]
        simpa using h2

/-- The foldl over bullets commutes with the per-agent map: the damage
phase acts independently on each agent entry. -/
lemma resolve_damage_pointwise (bullets : List BulletSt)
    (agents : List AgentSt) :
    ∀ start : List AgentSt,
      bullets.foldl
        (fun acc b =>
          if bulletHitList b agents = [] then acc
          else acc.map (fun a =>
            if a.id ∈ bulletHitList b agents then a.takeDamage b.damage
            else a)) start
      = start.map (fun a =>
          bullets.foldl
            (fun a2 b =>
              if bulletHitList b agents = [] then a2
              else if a2.id ∈ bulletHitList b agents then
                a2.takeDamage b.damage
              else a2) a) := by
  induction bullets with
  | nil => intro start; simp
  | cons b rest ih =>
    intro start
    by_cases hbe : bulletHitList b agents = []
    · simp only [List.foldl_cons, if_pos hbe]
      rw [ih start]
    · simp only [List.foldl_cons, if_neg hbe]
      rw [ih (start.map (fun a =>
        if a.id ∈ bulletHitList b agents then a.takeDamage b.damage else a)),
        List.map_map]
      rfl

/-! ### Claim C8 -/

/-- C8: bullets never damage their owner or a same-team agent.  With
unique agent ids: (i) such an agent's id never appears on the bullet's
hit list; (ii) an agent excluded that way by every bullet leaves the
damage phase entirely unchanged; (iii) after resolution each agent's
health is its old health reduced, once per hitting bullet in order, by
that bullet's damage (clamped at zero), so damage stacks exactly once per
hitting bullet and touches only opposing-team non-owner agents; (iv) a
bullet with a nonempty hit list is removed from the table, one with an
empty hit list survives. -/
theorem c8_bullet_team_filter (bullets : List BulletSt)
    (agents : List AgentSt)
    (hnd : (agents.map (fun a => a.id)).Nodup) :
    (∀ b ∈ bullets, ∀ a ∈ agents, (a.id = b.owner ∨ a.team = b.team) →
      a.id ∉ bulletHitList b agents) ∧
    (∀ a ∈ agents, (∀ b ∈ bullets, a.id = b.owner ∨ a.team = b.team) →
      a ∈ (resolveBulletHits bullets agents).1) ∧
    ((resolveBulletHits bullets agents).1 = agents.map (fun a =>
      { a with health := stackedHealth bullets agents a })) ∧
    (∀ b ∈ bullets, bulletHitList b agents ≠ [] →
      b ∉ (resolveBulletHits bullets agents).2) ∧
    (∀ b ∈ bullets, bulletHitList b agents = [] →
      b ∈ (resolveBulletHits bullets agents).2) := by
  have hmain : ∀ b ∈ bullets, ∀ a ∈ agents,
      (a.id = b.owner ∨ a.team = b.team) →
      a.id ∉ bulletHitList b agents := by
    intro b _ a ha hcond hmem
    rcases mem_bulletHitList.mp hmem with ⟨a2, ha2, hid, hown, hteam, _⟩
    have : a2 = a := List.inj_on_of_nodup_map hnd ha2 ha hid
    subst this
    rcases hcond with h | h
    · exact hown (hid.symm ▸ h)
    · exact hteam h
  have hpoint := resolve_damage_pointwise bullets agents agents
  have hper := damage_foldl_per_agent bullets agents
  have heq : (resolveBulletHits bullets agents).1 = agents.map (fun a =>
      { a with health := stackedHealth bullets agents a }) := by
    show bullets.foldl _ agents = _
    rw [hpoint]
    exact List.map_congr_left fun a _ => hper a
  refine ⟨hmain, ?_, heq, ?_, ?_⟩
  · intro a ha hall
    rw [heq]
    have hfe : bullets.filter
        (fun b => decide (a.id ∈ bulletHitList b agents)) = [] := by
      rw [List.filter_eq_nil_iff]
      intro b hb
      simp only [decide_eq_true_eq]
      exact hmain b hb a ha (hall b hb)
    have : ({ a with health := stackedHealth bullets agents a } : AgentSt)
        = a := by
      rw [show stackedHealth bullets agents a = a.health from by
        unfold stackedHealth; rw [hfe]; rfl]
    rw [← this]
    exact List.mem_map_of_mem _ ha
  · intro b _ hne hmem
    have := (List.mem_filter.mp hmem).2
    simp only [decide_eq_true_eq] at this
    exact hne this
  · intro b hb hemp
    exact List.mem_filter.mpr ⟨hb, by simp [hemp]⟩

/-- Witness for C8 at a two-agent, one-bullet state: the bullet owned by
agent 0 (team A) overlaps both team-A agents, yet neither its owner nor
the same-team agent ever appears on its hit list. -/
theorem c8_bullet_team_filter_witness :
    (([agentA0, agentA1].map (fun a => a.id)).Nodup) ∧
    (∀ b ∈ [bulletEx], ∀ a ∈ [agentA0, agentA1],
      (a.id = b.owner ∨ a.team = b.team) →
      a.id ∉ bulletHitList b [agentA0, agentA1]) :=
  ⟨by decide,
    (c8_bullet_team_filter [bulletEx] [agentA0, agentA1] (by decide)).1⟩

/-- Closed form of the scoring loop: starting from a nonnegative timer it
drains `⌊timer / interval⌋ = ⌊2·timer⌋` quanta, awarding 5 points each to
the controlling team. -/
lemma scoringLoop_spec :
    ∀ (k : ℕ) (status : ZoneStatus) (timer a b : ℚ), 0 ≤ timer →
      (⌊timer * 2⌋).toNat = k →
      scoringLoop status timer a b =
        (timer - (⌊timer * 2⌋ : ℚ) / 2,
         a + (if status = ZoneStatus.TEAM_A then 5 * (⌊timer * 2⌋ : ℚ) else 0),
         b + (if status = ZoneStatus.TEAM_B then 5 * (⌊timer * 2⌋ : ℚ) else 0))
    := by
  intro k
  induction k with
  | zero =>
    intro status timer a b hnn hk
    have h0 : ⌊timer * 2⌋ = 0 := by
      have : (0 : ℤ) ≤ ⌊timer * 2⌋ := Int.le_floor.mpr (by push_cast; linarith)
      omega
    have hlt : ¬ (KOTH_SCORING_INTERVAL ≤ timer) := by
      intro hc
      simp only [KOTH_SCORING_INTERVAL] at hc
      have : (1 : ℤ) ≤ ⌊timer * 2⌋ := Int.le_floor.mpr (by push_cast; linarith)
      omega
    rw [scoringLoop, dif_neg hlt, h0]
    simp
  | succ k ih =>
    intro status timer a b hnn hk
    have h1 : (1 : ℤ) ≤ ⌊timer * 2⌋ := by omega
    have hge : KOTH_SCORING_INTERVAL ≤ timer := by
      simp only [KOTH_SCORING_INTERVAL]
      have := Int.le_floor.mp h1
      push_cast at this
      linarith
    have hnn2 : 0 ≤ timer - KOTH_SCORING_INTERVAL := by linarith
    have hfl : ⌊(timer - KOTH_SCORING_INTERVAL) * 2⌋ = ⌊timer * 2⌋ - 1 := by
      simp only [KOTH_SCORING_INTERVAL]
      rw [show (timer - 1 / 2) * 2 = timer * 2 - 1 by ring, Int.floor_sub_one]
    have hk2 : (⌊(timer - KOTH_SCORING_INTERVAL) * 2⌋).toNat = k := by
      rw [hfl]; omega
    rw [scoringLoop, dif_pos hge]
    have harith : timer - KOTH_SCORING_INTERVAL -
        ((⌊timer * 2⌋ : ℚ) - 1) / 2 = timer - (⌊timer * 2⌋ : ℚ) / 2 := by
      simp only [KOTH_SCORING_INTERVAL]; ring
    have hPS : KOTH_POINTS_PER_SECOND * KOTH_SCORING_INTERVAL = 5 := by
      norm_num [KOTH_POINTS_PER_SECOND, KOTH_SCORING_INTERVAL]
    cases status
    case NEUTRAL =>
      rw [if_neg (show ¬ (ZoneStatus.NEUTRAL = ZoneStatus.TEAM_A) by decide),
        if_neg (show ¬ (ZoneStatus.NEUTRAL = ZoneStatus.TEAM_B) by decide),
        ih _ _ _ _ hnn2 hk2, hfl]
      push_cast
      rw [harith]
    case TEAM_A =>
      rw [if_pos rfl, hPS, ih _ _ _ _ hnn2 hk2, hfl]
      push_cast
      rw [harith]
      refine Prod.ext rfl (Prod.ext ?_ ?_) <;> simp <;> ring
    case TEAM_B =>
      rw [if_neg (show ¬ (ZoneStatus.TEAM_B = ZoneStatus.TEAM_A) by decide),
        if_pos rfl, hPS, ih _ _ _ _ hnn2 hk2, hfl]
      push_cast
      rw [harith]
      refine Prod.ext rfl (Prod.ext ?_ ?_) <;> simp <;> ring
    case CONTESTED =>
      rw [if_neg (show ¬ (ZoneStatus.CONTESTED = ZoneStatus.TEAM_A) by decide),
        if_neg (show ¬ (ZoneStatus.CONTESTED = ZoneStatus.TEAM_B) by decide),
        ih _ _ _ _ hnn2 hk2, hfl]
      push_cast
      rw [harith]

/-- Quantum invariant over a run of ticks with team A controlling the
zone: starting from accumulated time `S` (score `5·⌊2S⌋`, timer
`S − ⌊2S⌋/2`), processing ticks summing to `Σdts` reaches accumulated
time `S + Σdts`. -/
lemma runScoringTicks_inv (dts : List ℚ) (hnn : ∀ d ∈ dts, 0 ≤ d) :
    ∀ S : ℚ, 0 ≤ S →
      runScoringTicks ZoneStatus.TEAM_A dts
        ⟨5 * (⌊S * 2⌋ : ℚ), 0, S - (⌊S * 2⌋ : ℚ) / 2⟩
      = ⟨5 * (⌊(S + dts.sum) * 2⌋ : ℚ), 0,
         (S + dts.sum) - (⌊(S + dts.sum) * 2⌋ : ℚ) / 2⟩ := by
  induction dts with
  | nil => intro S hS; simp [runScoringTicks]
  | cons d rest ih =>
    intro S hS
    have hd : 0 ≤ d := hnn d (List.mem_cons_self d rest)
    have hrest : ∀ x ∈ rest, 0 ≤ x := fun x hx =>
      hnn x (List.mem_cons_of_mem d hx)
    have hfl2 : (⌊S * 2⌋ : ℚ) ≤ S * 2 := Int.floor_le _
    have htnn : 0 ≤ S - (⌊S * 2⌋ : ℚ) / 2 + d := by linarith
    have hkey : ⌊(S - (⌊S * 2⌋ : ℚ) / 2 + d) * 2⌋ =
        ⌊(S + d) * 2⌋ - ⌊S * 2⌋ := by
      rw [show (S - (⌊S * 2⌋ : ℚ) / 2 + d) * 2
          = (S + d) * 2 - ((⌊S * 2⌋ : ℤ) : ℚ) by push_cast; ring,
        Int.floor_sub_int]
    have hstep : updateScoring ZoneStatus.TEAM_A d
        ⟨5 * (⌊S * 2⌋ : ℚ), 0, S - (⌊S * 2⌋ : ℚ) / 2⟩ =
        ⟨5 * (⌊(S + d) * 2⌋ : ℚ), 0,
         (S + d) - (⌊(S + d) * 2⌋ : ℚ) / 2⟩ := by
      unfold updateScoring
      rw [scoringLoop_spec (⌊(S - (⌊S * 2⌋ : ℚ) / 2 + d) * 2⌋).toNat
        ZoneStatus.TEAM_A _ _ _ htnn rfl]
      simp only [KothScore.mk.injEq, hkey]
      refine ⟨?_, ?_, ?_⟩
      · push_cast; ring_nf
      · simp
      · push_cast; ring
    have hchain : runScoringTicks ZoneStatus.TEAM_A (d :: rest)
        ⟨5 * (⌊S * 2⌋ : ℚ), 0, S - (⌊S * 2⌋ : ℚ) / 2⟩ =
        runScoringTicks ZoneStatus.TEAM_A rest
          (updateScoring ZoneStatus.TEAM_A d
            ⟨5 * (⌊S * 2⌋ : ℚ), 0, S - (⌊S * 2⌋ : ℚ) / 2⟩) := rfl
    rw [hchain, hstep, ih hrest (S + d) (by linarith), List.sum_cons,
      show S + (d + rest.sum) = S + d + rest.sum by ring]

/-! ### Claim C6 -/

/-- C6: KOTH scoring is quantized.  With team A alone controlling the
zone from the start, after any sequence of nonnegative tick durations the
team-A score is exactly `pointsPerSecond·scoringInterval = 5` points per
elapsed full quantum, `5·⌊2·Σdt⌋`, independent of how the time is split
into ticks; in particular it is exactly 20.0 after 2.0 s, still 20.0 at
2.3 s, and exactly 25.0 at 2.5 s.  Team B scores nothing. -/
theorem c6_koth_quantized_scoring (dts : List ℚ)
    (hnn : ∀ d ∈ dts, 0 ≤ d) :
    (runScoringTicks ZoneStatus.TEAM_A dts ⟨0, 0, 0⟩).teamAScore
      = 5 * (⌊dts.sum * 2⌋ : ℚ) ∧
    (runScoringTicks ZoneStatus.TEAM_A dts ⟨0, 0, 0⟩).teamBScore = 0 ∧
    (dts.sum = 2 →
      (runScoringTicks ZoneStatus.TEAM_A dts ⟨0, 0, 0⟩).teamAScore = 20) ∧
    (dts.sum = 23 / 10 →
      (runScoringTicks ZoneStatus.TEAM_A dts ⟨0, 0, 0⟩).teamAScore = 20) ∧
    (dts.sum = 5 / 2 →
      (runScoringTicks ZoneStatus.TEAM_A dts ⟨0, 0, 0⟩).teamAScore = 25) := by
  have h0 := runScoringTicks_inv dts hnn 0 le_rfl
  norm_num at h0
  rw [h0]
  refine ⟨rfl, rfl, ?_, ?_, ?_⟩ <;> intro hs <;> rw [hs] <;> norm_num

/-- Witness for C6 with ticks `[1, 1, 1/2]` summing to 2.5 s. -/
theorem c6_koth_quantized_scoring_witness :
    (∀ d ∈ [(1 : ℚ), 1, 1 / 2], 0 ≤ d) ∧
    (runScoringTicks ZoneStatus.TEAM_A [(1 : ℚ), 1, 1 / 2]
      ⟨0, 0, 0⟩).teamAScore
      = 5 * (⌊([(1 : ℚ), 1, 1 / 2].sum) * 2⌋ : ℚ) :=
  ⟨by norm_num,
    (c6_koth_quantized_scoring [(1 : ℚ), 1, 1 / 2] (by norm_num)).1⟩

lemma enemyFlagOf_setEnemyFlag (st : CtfSt) (t : Team) (f : CTFFlag) :
    enemyFlagOf (setEnemyFlag st t f) t = f := by
  by_cases h : t = Team.TEAM_A <;> simp [enemyFlagOf, setEnemyFlag, h]

lemma ownFlagOf_setEnemyFlag (st : CtfSt) (t : Team) (f : CTFFlag) :
    ownFlagOf (setEnemyFlag st t f) t = ownFlagOf st t := by
  by_cases h : t = Team.TEAM_A <;> simp [ownFlagOf, setEnemyFlag, h]

lemma ownFlagOf_captureFlag (st : CtfSt) (t : Team) :
    ownFlagOf (captureFlag st t) t = ownFlagOf st t := by
  by_cases h : t = Team.TEAM_A <;>
    simp [captureFlag, ownFlagOf, setEnemyFlag, enemyFlagOf, h]

lemma pickupStep_of_carried (st : CtfSt) (a : AgentSt)
    (h : (enemyFlagOf st a.team).flagState = FlagState.CARRIED) :
    pickupStep st a = st := by
  simp [pickupStep, h]

/-! ### Claim C7 -/

/-- C7: a CTF capture happens exactly when an alive carrier of the enemy
flag is within `returnRadius` of their own base while their own flag is
`AT_BASE`; then the team's capture counter grows by
`pointsPerCapture` (1) and the enemy flag resets to its base.  If the own
flag is `CARRIED` or `DROPPED` the whole per-agent step is a no-op: no
capture, and the enemy flag stays `CARRIED` by that agent (deferred);
likewise nothing happens when the carrier is too far from base. -/
theorem c7_ctf_capture_rule (st : CtfSt) (a : AgentSt)
    (halive : a.isAlive = true)
    (hcarried : (enemyFlagOf st a.team).flagState = FlagState.CARRIED)
    (hcarrier : (enemyFlagOf st a.team).carrierId = some a.id) :
    ((ownFlagOf st a.team).flagState = FlagState.AT_BASE →
      distSq a.x a.y (ownBaseX a.team) (ownBaseY a.team) ≤
        CTF_FLAG_RETURN_RADIUS ^ 2 →
      capturesOf (processAgentFlags st a) a.team
        = capturesOf st a.team + CTF_POINTS_PER_CAPTURE ∧
      (enemyFlagOf (processAgentFlags st a) a.team).flagState
        = FlagState.AT_BASE ∧
      (enemyFlagOf (processAgentFlags st a) a.team).carrierId = none) ∧
    ((ownFlagOf st a.team).flagState ≠ FlagState.AT_BASE →
      processAgentFlags st a = st) ∧
    ((ownFlagOf st a.team).flagState = FlagState.AT_BASE →
      ¬ (distSq a.x a.y (ownBaseX a.team) (ownBaseY a.team) ≤
        CTF_FLAG_RETURN_RADIUS ^ 2) →
      processAgentFlags st a = st) ∧
    (∀ t : Team, capturesOf (processAgentFlags st a) t ≠ capturesOf st t →
      (ownFlagOf st a.team).flagState = FlagState.AT_BASE ∧
      distSq a.x a.y (ownBaseX a.team) (ownBaseY a.team) ≤
        CTF_FLAG_RETURN_RADIUS ^ 2) := by
  have hps := pickupStep_of_carried st a hcarried
  have halive2 : (¬ a.isAlive = true) = False := by simp [halive]
  refine ⟨?_, ?_, ?_, ?_⟩
  · intro hown hnear
    have hrun : processAgentFlags st a = ownReturnStep (captureFlag st a.team) a := by
      unfold processAgentFlags
      simp [hps, halive, hcarrier, hown, hnear]
    have hownAfter : (ownFlagOf (captureFlag st a.team) a.team).flagState
        = FlagState.AT_BASE := by rw [ownFlagOf_captureFlag]; exact hown
    have hret : ownReturnStep (captureFlag st a.team) a
        = captureFlag st a.team := by
      unfold ownReturnStep
      simp [hownAfter]
    rw [hrun, hret]
    refine ⟨?_, ?_, ?_⟩
    · unfold captureFlag capturesOf
      by_cases h : a.team = Team.TEAM_A <;>
        simp [setEnemyFlag, enemyFlagOf, h]
    · unfold captureFlag
      rw [enemyFlagOf_setEnemyFlag]
      rfl
    · unfold captureFlag
      rw [enemyFlagOf_setEnemyFlag]
      rfl
  · intro hown
    unfold processAgentFlags
    simp only [hps, halive]
    simp [hcarrier, hown]
  · intro hown hfar
    have hrun : processAgentFlags st a = ownReturnStep st a := by
      unfold processAgentFlags
      simp only [hps, halive]
      simp [hcarrier, hown, hfar]
    rw [hrun]
    unfold ownReturnStep
    simp [hown]
  · intro t hne
    by_cases hown : (ownFlagOf st a.team).flagState = FlagState.AT_BASE
    · by_cases hnear : distSq a.x a.y (ownBaseX a.team) (ownBaseY a.team) ≤
          CTF_FLAG_RETURN_RADIUS ^ 2
      · exact ⟨hown, hnear⟩
      · exfalso
        apply hne
        have hrun : processAgentFlags st a = ownReturnStep st a := by
          unfold processAgentFlags
          simp only [hps, halive]
          simp [hcarrier, hown, hnear]
        rw [hrun]
        unfold ownReturnStep
        simp [hown]
    · exfalso
      apply hne
      have hrun : processAgentFlags st a = st := by
        unfold processAgentFlags
        simp only [hps, halive]
        simp [hcarrier, hown]
      rw [hrun]

/-- Witness for C7: the carrier standing on its base with its own flag
home triggers the capture branch. -/
theorem c7_ctf_capture_rule_witness :
    agentCarrier.isAlive = true ∧
    (enemyFlagOf ctfEx agentCarrier.team).flagState = FlagState.CARRIED ∧
    (enemyFlagOf ctfEx agentCarrier.team).carrierId = some agentCarrier.id ∧
    ((ownFlagOf ctfEx agentCarrier.team).flagState = FlagState.AT_BASE →
      distSq agentCarrier.x agentCarrier.y (ownBaseX agentCarrier.team)
          (ownBaseY agentCarrier.team) ≤ CTF_FLAG_RETURN_RADIUS ^ 2 →
      capturesOf (processAgentFlags ctfEx agentCarrier) agentCarrier.team
        = capturesOf ctfEx agentCarrier.team + CTF_POINTS_PER_CAPTURE ∧
      (enemyFlagOf (processAgentFlags ctfEx agentCarrier)
        agentCarrier.team).flagState = FlagState.AT_BASE ∧
      (enemyFlagOf (processAgentFlags ctfEx agentCarrier)
        agentCarrier.team).carrierId = none) :=
  ⟨by norm_num [agentCarrier, agentA0, AgentSt.isAlive], rfl, rfl,
    (c7_ctf_capture_rule ctfEx agentCarrier
      (by norm_num [agentCarrier, agentA0, AgentSt.isAlive]) rfl rfl).1⟩

/-- Unfolding equation for the record loop when the chunk decodes. -/
lemma decodeRecords_succ_of_some {data : List ℕ} {e : EntityRec}
    (h : decodeRecord (data.take 25) = some e) (n : ℕ) :
    decodeRecords (n + 1) data =
      (if e.radius.nonpos then Except.error "Invalid radius"
       else if ¬ (e.idEntity ≤ MAX_ENTITY_ID) then
         Except.error "Invalid entity ID"
       else if ¬ (e.team ∈ validTeams) then Except.error "Invalid team"
       else
         match decodeRecords n (data.drop 25) with
         | Except.error s => Except.error s
         | Except.ok rest => Except.ok (e :: rest)) := by
  conv_lhs => rw [decodeRecords, h]

/-- Unfolding equation for the record loop when the chunk is short. -/
lemma decodeRecords_succ_of_none {data : List ℕ}
    (h : decodeRecord (data.take 25) = none) (n : ℕ) :
    decodeRecords (n + 1) data = Except.error "Invalid packet size" := by
  conv_lhs => rw [decodeRecords, h]

/-- The record loop succeeds exactly when every chunk is valid. -/
lemma decodeRecords_ok_iff :
    ∀ (n : ℕ) (data : List ℕ),
      (∃ l, decodeRecords n data = Except.ok l) ↔
        ∀ ch ∈ chunks25 n data, recordInvalid ch = false := by
  intro n
  induction n with
  | zero => intro data; simp [decodeRecords, chunks25]
  | succ n ih =>
    intro data
    cases hdr : decodeRecord (data.take 25) with
    | none =>
      rw [decodeRecords_succ_of_none hdr n]
      simp only [chunks25, List.mem_cons]
      constructor
      · rintro ⟨l, hl⟩; exact absurd hl (by simp)
      · intro hall
        have := hall (data.take 25) (Or.inl rfl)
        rw [recordInvalid, hdr] at this
        exact absurd this (by simp)
    | some e =>
      rw [decodeRecords_succ_of_some hdr n]
      simp only [chunks25, List.mem_cons]
      by_cases hrad : e.radius.nonpos
      · rw [if_pos hrad]
        constructor
        · rintro ⟨l, hl⟩; exact absurd hl (by simp)
        · intro hall
          have := hall (data.take 25) (Or.inl rfl)
          rw [recordInvalid, hdr] at this
          simp [hrad] at this
      · by_cases hid : e.idEntity ≤ MAX_ENTITY_ID
        · by_cases htm : e.team ∈ validTeams
          · have hvalid : recordInvalid (data.take 25) = false := by
              rw [recordInvalid, hdr]
              simp only [Bool.or_eq_false_iff]
              refine ⟨⟨by simp [hrad], ?_⟩, by simp [htm]⟩
              simp only [decide_eq_false_iff_not, not_lt]
              exact hid
            rw [if_neg hrad, if_neg (by simp [hid]), if_neg (by simp [htm])]
            constructor
            · rintro ⟨l, hl⟩
              intro ch hch
              rcases hch with rfl | hch
              · exact hvalid
              · rcases hrec : decodeRecords n (data.drop 25) with s | l2
                · rw [hrec] at hl; exact absurd hl (by simp)
                · exact ((ih (data.drop 25)).mp ⟨l2, hrec⟩) ch hch
            · intro hall
              obtain ⟨l2, hl2⟩ := (ih (data.drop 25)).mpr
                (fun ch hch => hall ch (Or.inr hch))
              exact ⟨e :: l2, by rw [hl2]⟩
          · rw [if_neg hrad, if_neg (by simp [hid]), if_pos (by simp [htm])]
            constructor
            · rintro ⟨l, hl⟩
              exact absurd hl (by simp)
            · intro hall
              have := hall (data.take 25) (Or.inl rfl)
              rw [recordInvalid, hdr] at this
              simp [htm] at this
        · rw [if_neg hrad, if_pos (by simp [hid])]
          constructor
          · rintro ⟨l, hl⟩
            exact absurd hl (by simp)
          · intro hall
            have := hall (data.take 25) (Or.inl rfl)
            rw [recordInvalid, hdr] at this
            simp at this
            omega

/-! ### Claim C9 -/

/-- C9 counterexample: inputs shorter than 2 bytes are NOT rejected as
`BadPacket` — `unpack_entities` returns an empty entity list for them
(`if len(data) < 2: return []`). -/
theorem c9_short_input_decodes :
    unpackEntities [] = Except.ok [] ∧
    unpackEntities [7] = Except.ok [] ∧
    ∀ e, unpackEntities [7] ≠ Except.error e := by
  refine ⟨rfl, rfl, ?_⟩
  intro e h
  rw [show unpackEntities [7] = Except.ok [] from rfl] at h
  exact Except.noConfusion h

/-- C9 (amended): inputs shorter than 2 bytes decode successfully to the
empty list; for inputs with a leading `u16` count, decoding fails exactly
when the length differs from `2 + count·25` or some 25-byte record
carries invalid fields (radius ≤ 0, id above 65535, unknown team byte). -/
theorem c9_unpack_error_conditions (data : List ℕ) :
    (data.length < 2 → unpackEntities data = Except.ok []) ∧
    (∀ c0 c1 rest, data = c0 :: c1 :: rest →
      (data.length ≠ 2 + decodeU16 c0 c1 * ENTITY_PACKED_SIZE →
        unpackEntities data = Except.error "Invalid packet size") ∧
      (data.length = 2 + decodeU16 c0 c1 * ENTITY_PACKED_SIZE →
        ((∃ l, unpackEntities data = Except.ok l) ↔
          ∀ ch ∈ chunks25 (decodeU16 c0 c1) rest,
            recordInvalid ch = false))) := by
  constructor
  · intro hlen
    match data with
    | [] => rfl
    | [_] => rfl
    | _ :: _ :: _ => exact absurd hlen (by simp)
  · rintro c0 c1 rest rfl
    constructor
    · intro hne
      simp only [unpackEntities]
      rw [if_pos hne]
    · intro heq
      simp only [unpackEntities]
      rw [if_neg (by exact fun hc => hc heq)]
      exact decodeRecords_ok_iff (decodeU16 c0 c1) rest

/-- Witness for C9: the two-byte packet `count = 0` hits the
correct-length branch and decodes to the empty list. -/
theorem c9_unpack_error_conditions_witness :
    (([0, 0] : List ℕ) = 0 :: 0 :: []) ∧
    (([0, 0] : List ℕ).length = 2 + decodeU16 0 0 * ENTITY_PACKED_SIZE →
      ((∃ l, unpackEntities [0, 0] = Except.ok l) ↔
        ∀ ch ∈ chunks25 (decodeU16 0 0) [], recordInvalid ch = false)) :=
  ⟨rfl, ((c9_unpack_error_conditions [0, 0]).2 0 0 [] rfl).2⟩

/-- What a terminating march step means: the hit is at the `(k+1)`-st
sample, a wall hit samples a wall cell, and an agent hit samples the
body of a candidate agent with no wall at that sample. -/
lemma rayMarch_spec (w : StateWalls) (cands : List AgentSt)
    (dx dy stepSize maxDist : ℚ) :
    ∀ (fuel : ℕ) (traveled curX curY d : ℚ) (h : RayHit),
      rayMarch w cands dx dy stepSize maxDist fuel traveled curX curY
        = some (d, h) →
      ∃ k : ℕ, d = traveled + (k + 1 : ℕ) * stepSize ∧
        ((h = RayHit.wall ∧
          w.hasWallAtPos (curX + (k + 1 : ℕ) * (dx * stepSize))
            (curY + (k + 1 : ℕ) * (dy * stepSize)) = true) ∨
         (∃ i ag, h = RayHit.agent i ∧
          w.hasWallAtPos (curX + (k + 1 : ℕ) * (dx * stepSize))
            (curY + (k + 1 : ℕ) * (dy * stepSize)) = false ∧
          ag ∈ cands ∧ ag.id = i ∧
          (curX + (k + 1 : ℕ) * (dx * stepSize) - ag.x) ^ 2 +
            (curY + (k + 1 : ℕ) * (dy * stepSize) - ag.y) ^ 2
            < ag.radius ^ 2)) := by
  intro fuel
  induction fuel with
  | zero => intro traveled curX curY d h hm; exact absurd hm (by simp [rayMarch])
  | succ fuel ih =>
    intro traveled curX curY d h hm
    rw [rayMarch] at hm
    by_cases hlt : traveled < maxDist
    · rw [if_pos hlt] at hm
      by_cases hw : w.hasWallAtPos (curX + dx * stepSize)
          (curY + dy * stepSize) = true
      · rw [if_pos hw, Option.some_inj, Prod.mk.injEq] at hm
        obtain ⟨hd, hh⟩ := hm
        subst hd
        subst hh
        refine ⟨0, by push_cast; ring, Or.inl ⟨rfl, ?_⟩⟩
        rw [show curX + ((0 + 1 : ℕ) : ℚ) * (dx * stepSize)
            = curX + dx * stepSize by push_cast; ring,
          show curY + ((0 + 1 : ℕ) : ℚ) * (dy * stepSize)
            = curY + dy * stepSize by push_cast; ring]
        exact hw
      · rw [if_neg hw] at hm
        cases hf : List.find? (fun ag =>
            decide ((curX + dx * stepSize - ag.x) ^ 2 +
              (curY + dy * stepSize - ag.y) ^ 2 < ag.radius ^ 2)) cands with
        | some ag =>
          rw [hf, Option.some_inj, Prod.mk.injEq] at hm
          obtain ⟨hd, hh⟩ := hm
          subst hd
          subst hh
          have hpred := List.find?_some hf
          have hmem := List.mem_of_find?_eq_some hf
          simp only [decide_eq_true_eq] at hpred
          refine ⟨0, by push_cast; ring,
            Or.inr ⟨ag.id, ag, rfl, ?_, hmem, rfl, ?_⟩⟩
          · rw [show curX + ((0 + 1 : ℕ) : ℚ) * (dx * stepSize)
              = curX + dx * stepSize by push_cast; ring,
              show curY + ((0 + 1 : ℕ) : ℚ) * (dy * stepSize)
              = curY + dy * stepSize by push_cast; ring]
            exact Bool.eq_false_iff.mpr (fun hc => hw hc)
          · rw [show curX + ((0 + 1 : ℕ) : ℚ) * (dx * stepSize)
              = curX + dx * stepSize by push_cast; ring,
              show curY + ((0 + 1 : ℕ) : ℚ) * (dy * stepSize)
              = curY + dy * stepSize by push_cast; ring]
            exact hpred
        | none =>
          rw [hf] at hm
          obtain ⟨k, hd, hrest⟩ := ih (traveled + stepSize)
            (curX + dx * stepSize) (curY + dy * stepSize) d h hm
          refine ⟨k + 1, by rw [hd]; push_cast; ring, ?_⟩
          have hx : curX + dx * stepSize + (k + 1 : ℕ) * (dx * stepSize)
              = curX + (k + 1 + 1 : ℕ) * (dx * stepSize) := by push_cast; ring
          have hy : curY + dy * stepSize + (k + 1 : ℕ) * (dy * stepSize)
              = curY + (k + 1 + 1 : ℕ) * (dy * stepSize) := by push_cast; ring
          rcases hrest with ⟨hh, hwall⟩ | ⟨i, ag, hh, hnw, hmem, hid, hbody⟩
          · exact Or.inl ⟨hh, by rw [← hx, ← hy]; exact hwall⟩
          · exact Or.inr ⟨i, ag, hh, by rw [← hx, ← hy]; exact hnw, hmem, hid,
              by rw [← hx, ← hy]; exact hbody⟩
    · rw [if_neg hlt] at hm
      exact absurd hm (by simp)

/-- One march step that hits an agent. -/
lemma rayMarch_step_agent {w : StateWalls} {cands : List AgentSt}
    {dx dy stepSize maxDist traveled curX curY : ℚ} {ag : AgentSt}
    (fuel : ℕ) (h1 : traveled < maxDist)
    (h2 : w.hasWallAtPos (curX + dx * stepSize) (curY + dy * stepSize)
      = false)
    (h3 : cands.find? (fun a2 =>
        decide ((curX + dx * stepSize - a2.x) ^ 2 +
          (curY + dy * stepSize - a2.y) ^ 2 < a2.radius ^ 2)) = some ag) :
    rayMarch w cands dx dy stepSize maxDist (fuel + 1) traveled curX curY
      = some (traveled + stepSize, RayHit.agent ag.id) := by
  rw [rayMarch, if_pos h1, if_neg (by simp [h2]), h3]

/-- One march step that hits nothing and continues. -/
lemma rayMarch_step_continue {w : StateWalls} {cands : List AgentSt}
    {dx dy stepSize maxDist traveled curX curY : ℚ}
    (fuel : ℕ) (h1 : traveled < maxDist)
    (h2 : w.hasWallAtPos (curX + dx * stepSize) (curY + dy * stepSize)
      = false)
    (h3 : cands.find? (fun a2 =>
        decide ((curX + dx * stepSize - a2.x) ^ 2 +
          (curY + dy * stepSize - a2.y) ^ 2 < a2.radius ^ 2)) = none) :
    rayMarch w cands dx dy stepSize maxDist (fuel + 1) traveled curX curY
      = rayMarch w cands dx dy stepSize maxDist fuel
          (traveled + stepSize) (curX + dx * stepSize)
          (curY + dy * stepSize) := by
  rw [rayMarch, if_pos h1, if_neg (by simp [h2]), h3]

/-! ### Claim C1 -/

/-- C1 counterexample: agents DO block rays.  On the eastward ray from
the perceiver at (100,100), the same-team agent at (110,100) terminates
the ray at the first sample (the ray does not stop on a wall or at max
distance), detection adds nothing, and the team-B enemy at (124,100)
standing behind the friendly on the same ray goes undetected — while
with the friendly removed the very same ray reaches the enemy and
detects it. -/
theorem c1_friendly_blocks_ray :
    castRay wallsEmpty [agentA0, fovFriendly, fovEnemy] 0 20 100 100 1 0 800
      = some (5 / 2, RayHit.agent 1) ∧
    rayDetect [agentA0, fovFriendly, fovEnemy] Team.TEAM_A
      (some (5 / 2, RayHit.agent 1)) = ∅ ∧
    castRay wallsEmpty [agentA0, fovEnemy] 0 20 100 100 1 0 800
      = some (5, RayHit.agent 2) ∧
    rayDetect [agentA0, fovEnemy] Team.TEAM_A (some (5, RayHit.agent 2))
      = {2} := by
  have hgrid : ((wallsEmpty.gridUnit : ℤ) : ℚ) = 5 := by
    norm_num [wallsEmpty]
  have hstep : (5 : ℚ) / RAY_STEP_DIVISOR_VAL = 5 / 2 := by
    norm_num [RAY_STEP_DIVISOR_VAL]
  have hfuel : ⌈(800 : ℚ) / (5 / 2)⌉.toNat + 1 = 320 + 1 := by
    norm_num
    rfl
  refine ⟨?_, ?_, ?_, ?_⟩
  · have hcands : castRayCandidates [agentA0, fovFriendly, fovEnemy] 0 100 100
        (FOV_RATIO_VAL * 20) = [fovFriendly, fovEnemy] := by
      norm_num [castRayCandidates, List.filter, agentA0, fovFriendly,
        fovEnemy, FOV_RATIO_VAL]
    have hnowall : wallsEmpty.hasWallAtPos (100 + 1 * ((5 : ℚ) / 2))
        (100 + 0 * ((5 : ℚ) / 2)) = false := by
      norm_num [StateWalls.hasWallAtPos, StateWalls.toCell,
        StateWalls.hasWall, wallsEmpty]
    have hfind : List.find? (fun a2 =>
        decide (((100 : ℚ) + 1 * (5 / 2) - a2.x) ^ 2 +
          ((100 : ℚ) + 0 * (5 / 2) - a2.y) ^ 2 < a2.radius ^ 2))
        [fovFriendly, fovEnemy] = some fovFriendly := by
      norm_num [List.find?, fovFriendly, fovEnemy, agentA0]
    simp only [castRay, hgrid, hstep, hcands]
    rw [hfuel, rayMarch_step_agent 320 (by norm_num) hnowall hfind]
    norm_num [fovFriendly, agentA0]
  · norm_num [rayDetect, List.find?, agentA0, fovFriendly, fovEnemy]
  · have hcands : castRayCandidates [agentA0, fovEnemy] 0 100 100
        (FOV_RATIO_VAL * 20) = [fovEnemy] := by
      norm_num [castRayCandidates, List.filter, agentA0, fovEnemy,
        FOV_RATIO_VAL]
    have hnowall : wallsEmpty.hasWallAtPos (100 + 1 * ((5 : ℚ) / 2))
        (100 + 0 * ((5 : ℚ) / 2)) = false := by
      norm_num [StateWalls.hasWallAtPos, StateWalls.toCell,
        StateWalls.hasWall, wallsEmpty]
    have hfind : List.find? (fun a2 =>
        decide (((100 : ℚ) + 1 * (5 / 2) - a2.x) ^ 2 +
          ((100 : ℚ) + 0 * (5 / 2) - a2.y) ^ 2 < a2.radius ^ 2))
        [fovEnemy] = none := by
      norm_num [List.find?, fovEnemy, agentA0]
    simp only [castRay, hgrid, hstep, hcands]
    rw [hfuel, rayMarch_step_continue 320 (by norm_num) hnowall hfind]
    have hnowall2 : wallsEmpty.hasWallAtPos
        (100 + 1 * ((5 : ℚ) / 2) + 1 * ((5 : ℚ) / 2))
        (100 + 0 * ((5 : ℚ) / 2) + 0 * ((5 : ℚ) / 2)) = false := by
      norm_num [StateWalls.hasWallAtPos, StateWalls.toCell,
        StateWalls.hasWall, wallsEmpty]
    have hfind2 : List.find? (fun a2 =>
        decide (((100 : ℚ) + 1 * (5 / 2) + 1 * (5 / 2) - a2.x) ^ 2 +
          ((100 : ℚ) + 0 * (5 / 2) + 0 * (5 / 2) - a2.y) ^ 2
            < a2.radius ^ 2)) [fovEnemy] = some fovEnemy := by
      norm_num [List.find?, fovEnemy, agentA0]
    rw [show (320 : ℕ) = 319 + 1 from rfl,
      rayMarch_step_agent 319 (by norm_num) hnowall2 hfind2]
    norm_num [fovEnemy, agentA0]
  · norm_num [rayDetect, List.find?, agentA0, fovEnemy]
    exact fun h => absurd h (by decide)

/-- C1 (amended): a cast ray terminates on the first sampled wall cell,
or on the first sampled agent body (either team) among the pre-filtered
candidates — with no wall at that sample — or at maximum distance; a ray
terminating on an opposing-team agent contributes that id to
`detectedEnemies`, while one terminating on a same-team agent contributes
nothing (and the ray has still ended there). -/
theorem c1_ray_semantics (w : StateWalls) (agents : List AgentSt)
    (selfId : ℕ) (selfTeam : Team) (selfRadius : ℚ)
    (startX startY dx dy maxDist d : ℚ) (h : RayHit)
    (hc : castRay w agents selfId selfRadius startX startY dx dy maxDist
      = some (d, h)) :
    (h = RayHit.wall →
      w.hasWallAtPos (startX + dx * d) (startY + dy * d) = true) ∧
    (∀ i, h = RayHit.agent i →
      w.hasWallAtPos (startX + dx * d) (startY + dy * d) = false ∧
      ∃ ag ∈ castRayCandidates agents selfId startX startY
          (FOV_RATIO_VAL * selfRadius),
        ag.id = i ∧
        (startX + dx * d - ag.x) ^ 2 + (startY + dy * d - ag.y) ^ 2
          < ag.radius ^ 2) ∧
    (∀ i ag, h = RayHit.agent i →
      agents.find? (fun a2 => a2.id = i) = some ag →
      (ag.team ≠ selfTeam →
        rayDetect agents selfTeam (some (d, h)) = {i}) ∧
      (ag.team = selfTeam →
        rayDetect agents selfTeam (some (d, h)) = ∅)) := by
  simp only [castRay] at hc
  obtain ⟨k, hd, hcase⟩ := rayMarch_spec w _ dx dy _ maxDist _ 0 startX
    startY d h hc
  have hxpos : startX + ((k + 1 : ℕ) : ℚ) *
      (dx * ((w.gridUnit : ℚ) / RAY_STEP_DIVISOR_VAL)) = startX + dx * d := by
    rw [hd]; push_cast; ring
  have hypos : startY + ((k + 1 : ℕ) : ℚ) *
      (dy * ((w.gridUnit : ℚ) / RAY_STEP_DIVISOR_VAL)) = startY + dy * d := by
    rw [hd]; push_cast; ring
  refine ⟨?_, ?_, ?_⟩
  · intro hwall
    rcases hcase with ⟨_, hw⟩ | ⟨i, ag, hh, _⟩
    · rw [← hxpos, ← hypos]; exact hw
    · rw [hwall] at hh; exact absurd hh (by simp)
  · intro i hagent
    rcases hcase with ⟨hh, _⟩ | ⟨i2, ag, hh, hnw, hmem, hid, hbody⟩
    · rw [hagent] at hh; exact absurd hh (by simp)
    · have hi : i2 = i := by
        rw [hagent] at hh; exact (RayHit.agent.injEq .. ▸ hh).symm
      subst hi
      exact ⟨by rw [← hxpos, ← hypos]; exact hnw,
        ag, hmem, hid, by rw [← hxpos, ← hypos]; exact hbody⟩
  · intro i ag hagent hfind
    subst hagent
    constructor
    · intro hne
      simp [rayDetect, hfind, hne]
    · intro heq
      simp [rayDetect, hfind, heq]

/-- Witness for C1: a ray that hits the wall cell at its first sample. -/
theorem c1_ray_semantics_witness :
    castRay wallsOne [] 0 20 100 100 1 0 800 = some (5 / 2, RayHit.wall) ∧
    (RayHit.wall = RayHit.wall →
      wallsOne.hasWallAtPos (100 + 1 * ((5 : ℚ) / 2))
        (100 + 0 * ((5 : ℚ) / 2)) = true) := by
  have hgrid : ((wallsOne.gridUnit : ℤ) : ℚ) = 5 := by
    norm_num [wallsOne, wallsEmpty]
  have hstep : (5 : ℚ) / RAY_STEP_DIVISOR_VAL = 5 / 2 := by
    norm_num [RAY_STEP_DIVISOR_VAL]
  have hfuel : ⌈(800 : ℚ) / (5 / 2)⌉.toNat + 1 = 320 + 1 := by
    norm_num
    rfl
  have hwall : wallsOne.hasWallAtPos (100 + 1 * ((5 : ℚ) / 2))
      (100 + 0 * ((5 : ℚ) / 2)) = true := by
    norm_num [StateWalls.hasWallAtPos, StateWalls.toCell, StateWalls.hasWall,
      wallsOne, wallsEmpty]
  have hc : castRay wallsOne [] 0 20 100 100 1 0 800
      = some (5 / 2, RayHit.wall) := by
    have hcands : castRayCandidates [] 0 100 100 (FOV_RATIO_VAL * 20)
        = [] := rfl
    simp only [castRay, hgrid, hstep, hcands]
    rw [hfuel, rayMarch, if_pos (by norm_num : (0 : ℚ) < 800),
      if_pos hwall]
    norm_num
  refine ⟨hc, ?_⟩
  have := (c1_ray_semantics wallsOne [] 0 Team.TEAM_A 20 100 100 1 0 800
    (5 / 2) RayHit.wall hc).1
  intro hw
  simpa using this rfl

end ArenaBattle
